import Mathlib

/-!
Verification development for the OmneyBusiness field-verification logic.

The definitions below are a shallow embedding of the scrape-and-verify
reconciliation code found in:
  - Scripts/tc_04_verify_pending_receivables.py  (`_capture_invoice_details`,
    `_verify_data`, `run_test`)
  - Scripts/omney_business_automation.py  (TC_04 step 4 verification loop,
    TC_05 step 6 verification loop)
  - Scripts/tc_06_pay_invoice.py  (`capture_and_verify_form_data`)

Strings are modelled as `List Char`.  Python `float(...)` applied to the
comma-stripped amount strings is modelled as exact decimal parsing into a
scaled-integer representation (`Dec`); the comparison `abs(e - a) < 0.01`
is carried out over those exact decimals (i.e. the binary rounding of IEEE
floats is abstracted to exact decimal arithmetic; exotic `float()` inputs
such as `inf`, `nan`, exponent underscores are not modelled).
-/

/-- The whitespace characters recognised by Python `str.strip()` and by the
`\s` class of the JavaScript regexes in the capture code (ASCII subset). -/
def isWsChar (c : Char) : Bool :=
  c == ' ' || c == '\t' || c == '\n' || c == '\r' || c == '\x0b' || c == '\x0c'

/-- Python `str.strip()`: drop leading and trailing whitespace. -/
def pyStrip (s : List Char) : List Char :=
  ((s.dropWhile isWsChar).reverse.dropWhile isWsChar).reverse

/-- Python `str.upper()` (ASCII model). -/
def pyUpper (s : List Char) : List Char :=
  s.map Char.toUpper

/-- The normalization applied on both sides before comparison:
`str(v).strip().upper() if v else ''` (an absent value is the empty
string, and a falsy value normalizes to the empty string). -/
def normalizeVal (v : List Char) : List Char :=
  if v = [] then [] else pyUpper (pyStrip v)

/-- The three verification statuses produced by the verifiers
(`"MATCH"`, `"MISMATCH"`, `"DATA MISSING"` in the Python source). -/
inductive Status where
  | MATCH
  | MISMATCH
  | DATA_MISSING
deriving DecidableEq, Repr

/-- Per-field comparison of `_verify_data` in
tc_04_verify_pending_receivables.py (also the non-Amount branch of the
TC_04 verification loop in omney_business_automation.py):
normalized equality, then the missing-data test on the raw actual value,
else mismatch. -/
def verifyBasic (expected actual : List Char) : Status :=
  if normalizeVal actual = normalizeVal expected then Status.MATCH
  else if actual = [] then Status.DATA_MISSING
  else Status.MISMATCH

example : verifyBasic "INR".data "inr ".data = Status.MATCH := by decide
example : verifyBasic "X".data [] = Status.DATA_MISSING := by decide
example : verifyBasic "X".data [' '] = Status.MISMATCH := by decide
example : verifyBasic [] [] = Status.MATCH := by decide

/-- Exact decimal number: the value `num / 10 ^ scale`.  This is the
embedding of the result of Python `float()` on the finite decimal strings
handled by the verification code. -/
structure Dec where
  num : Int
  scale : Nat
deriving DecidableEq, Repr

/-- The rational value denoted by a `Dec`. -/
def Dec.toRat (x : Dec) : ℚ :=
  (x.num : ℚ) / 10 ^ x.scale

/-- Value of a digit string, most significant first. -/
def digitsToNat (ds : List Char) : Nat :=
  ds.foldl (fun acc c => acc * 10 + (c.toNat - 48)) 0

/-- Attach an optional exponent suffix (`e`/`E`, optional sign, digits) to
an already-parsed mantissa, requiring the rest of the input to be fully
consumed, as Python `float()` does. -/
def finishExp (neg : Bool) (mant : Nat) (sc : Nat) (s : List Char) : Option Dec :=
  let m : Int := if neg then -(mant : Int) else (mant : Int)
  match s with
  | [] => some ⟨m, sc⟩
  | c :: r =>
    if c == 'e' || c == 'E' then
      let signAndRest : Bool × List Char :=
        match r with
        | '+' :: t => (false, t)
        | '-' :: t => (true, t)
        | t => (false, t)
      let ed := signAndRest.2.takeWhile Char.isDigit
      let r3 := signAndRest.2.dropWhile Char.isDigit
      if ed = [] ∨ r3 ≠ [] then none
      else if signAndRest.1 then some ⟨m, sc + digitsToNat ed⟩
      else some ⟨m * 10 ^ digitsToNat ed, sc⟩
    else none

/-- Python `float()` on a finite decimal string: optional surrounding
whitespace, optional sign, integer digits and/or a fractional part, and an
optional exponent.  Returns `none` exactly when `float()` would raise
`ValueError` (the verifiers catch that and fall back to string
comparison). -/
def pyFloat (s0 : List Char) : Option Dec :=
  let s1 := pyStrip s0
  let signAndRest : Bool × List Char :=
    match s1 with
    | '+' :: r => (false, r)
    | '-' :: r => (true, r)
    | r => (false, r)
  let ip := signAndRest.2.takeWhile Char.isDigit
  let s3 := signAndRest.2.dropWhile Char.isDigit
  match s3 with
  | '.' :: r =>
    let fp := r.takeWhile Char.isDigit
    let s4 := r.dropWhile Char.isDigit
    if ip = [] ∧ fp = [] then none
    else finishExp signAndRest.1 (digitsToNat (ip ++ fp)) fp.length s4
  | _ =>
    if ip = [] then none
    else finishExp signAndRest.1 (digitsToNat ip) 0 s3

/-- `float(str(v).replace(",", ""))`: every comma is removed before the
numeric parse. -/
def parseAmount (s : List Char) : Option Dec :=
  pyFloat (s.filter (fun c => !(c == ',')))

/-- The tolerance test `abs(expected_num - actual_num) < 0.01`, carried
out exactly over the scaled-integer decimals. -/
def withinTol (x y : Dec) : Bool :=
  100 * (x.num * 10 ^ y.scale - y.num * 10 ^ x.scale).natAbs < 10 ^ (x.scale + y.scale)

/-- The Amount branch shared by the TC_04 and TC_05 verification loops of
omney_business_automation.py: parse both sides as numbers and compare with
tolerance 0.01; on a parse failure of either side (`except:`), fall back to
`"MISMATCH" if expected_normalized != actual_normalized else "MATCH"`. -/
def amountCompare (expected actual : List Char) : Status :=
  match parseAmount expected, parseAmount actual with
  | some x, some y => if withinTol x y then Status.MATCH else Status.MISMATCH
  | _, _ =>
    if normalizeVal expected ≠ normalizeVal actual then Status.MISMATCH
    else Status.MATCH

example : parseAmount "9,500.00".data = some ⟨950000, 2⟩ := by decide
example : parseAmount "9500.00".data = some ⟨950000, 2⟩ := by decide
example : parseAmount " -2.5e1 ".data = some ⟨-250, 1⟩ := by decide
example : parseAmount "1e-2".data = some ⟨1, 2⟩ := by decide
example : parseAmount "".data = none := by decide
example : parseAmount "N/A".data = none := by decide
example : parseAmount ".".data = none := by decide
example : parseAmount "1.".data = some ⟨1, 0⟩ := by decide
example : amountCompare "9,500.00".data "9500".data = Status.MATCH := by decide
example : amountCompare "9500.00".data "9499.50".data = Status.MISMATCH := by decide
example : amountCompare "abc".data "ABC ".data = Status.MATCH := by decide

/-- Python substring operator `needle in haystack`: contiguous substring
test, implemented by scanning every suffix for a prefix match. -/
def isSubstr (needle : List Char) : List Char → Bool
  | [] => needle.isPrefixOf []
  | c :: cs => needle.isPrefixOf (c :: cs) || isSubstr needle cs

/-- Non-Amount branch of the TC_05 verification loop in
omney_business_automation.py: normalized equality, then substring match in
either direction, then the missing-data test, else mismatch. -/
def tc05Basic (expected actual : List Char) : Status :=
  let en := normalizeVal expected
  let an := normalizeVal actual
  if en = an then Status.MATCH
  else if isSubstr an en || isSubstr en an then Status.MATCH
  else if actual = [] then Status.DATA_MISSING
  else Status.MISMATCH

/-- Per-field comparison of the TC_04 verification loop in
omney_business_automation.py: the `Amount` field goes through the numeric
tolerance comparison, every other field through the basic chain. -/
def tc04VerifyField (isAmount : Bool) (expected actual : List Char) : Status :=
  if isAmount then amountCompare expected actual
  else verifyBasic expected actual

/-- Per-field comparison of the TC_05 verification loop in
omney_business_automation.py. -/
def tc05VerifyField (isAmount : Bool) (expected actual : List Char) : Status :=
  if isAmount then amountCompare expected actual
  else tc05Basic expected actual

/-- `failed_count = sum(1 for r in verification_results if r['status'] != 'MATCH')`. -/
def failedCount (rs : List Status) : Nat :=
  (rs.filter (fun r => !(r == Status.MATCH))).length

/-- `overall_status = "PASSED" if failed_count == 0 else "FAILED"`,
rendered as a Boolean (`true` = PASSED). -/
def overallPassed (rs : List Status) : Bool :=
  failedCount rs == 0

/-- `captured_data.get(field, '')`: dictionary lookup with the empty
string as default. -/
def lookupOrBlank (captured : List (List Char × List Char)) (k : List Char) : List Char :=
  match captured.find? (fun q => q.1 == k) with
  | some q => q.2
  | none => []

/-- The TC_04 verification loop of omney_business_automation.py over a
whole expected-data map: for every expected field, look up the captured
actual (defaulting to blank) and classify it, keeping the field order. -/
def runVerification (expected captured : List (List Char × List Char)) :
    List (List Char × Status) :=
  expected.map (fun q =>
    (q.1, tc04VerifyField (q.1 = "Amount".data) q.2 (lookupOrBlank captured q.1)))

example : tc05Basic "BANDHAN BANK".data "BANDHAN BANK LIMITED".data = Status.MATCH := by decide
example : tc05Basic "****5678".data "********5678".data = Status.MATCH := by decide
example : verifyBasic "****5678".data "********5678".data = Status.MISMATCH := by decide
example : tc05Basic "ABC".data [] = Status.MATCH := by decide
example : failedCount [Status.MATCH, Status.MISMATCH] = 1 := by decide
example :
    runVerification [("Amount".data, "9500.00".data)] [("Amount".data, "9,500.00".data)]
      = [("Amount".data, Status.MATCH)] := by decide

/-- Case-insensitive prefix test, the embedding of matching a literal
regex label under the JavaScript `/i` flag (ASCII case folding). -/
def ciPrefix : List Char → List Char → Bool
  | [], _ => true
  | _ :: _, [] => false
  | p :: ps, c :: cs => (p.toUpper == c.toUpper) && ciPrefix ps cs

/-- One extraction pattern of `_capture_invoice_details`: a literal label
(matched case-insensitively), then `\s*\n?\s*`, then a one-or-more capture
group over a character class.  Covers the shape of every field regex used
by the capture code. -/
structure FieldPat where
  label : List Char
  capClass : Char → Bool

/-- Try the pattern at the start of `s`: match the label, skip the
whitespace run, then greedily capture the character class; the capture
must be non-empty (the `+` quantifier). -/
def matchAt (p : FieldPat) (s : List Char) : Option (List Char) :=
  if ciPrefix p.label s then
    let capd := ((s.drop p.label.length).dropWhile isWsChar).takeWhile p.capClass
    if capd = [] then none else some capd
  else none

/-- JavaScript `text.match(re)`: scan left to right and return the capture
of the first position where the whole pattern matches. -/
def findFirst (p : FieldPat) : List Char → Option (List Char)
  | [] => matchAt p []
  | c :: cs =>
    match matchAt p (c :: cs) with
    | some v => some v
    | none => findFirst p cs

/-- The character class `[\d,.]` of the amount regexes. -/
def isAmtChar (c : Char) : Bool :=
  c.isDigit || c == ',' || c == '.'

/-- `/Amount Due\s*\n?\s*([\d,.]+)/i`. -/
def amountPat1 : FieldPat :=
  ⟨"Amount Due".data, isAmtChar⟩

/-- `/Payment Request\s*\n?\s*([\d,.]+)/i`, the alternative capture. -/
def amountPat2 : FieldPat :=
  ⟨"Payment Request".data, isAmtChar⟩

/-- The Amount extraction of `_capture_invoice_details`: try the
`Amount Due` pattern, record `match[1].trim()` on success; if the field is
still absent or falsy, try the `Payment Request` pattern.  A field for
which no pattern matches is simply absent (`none`). -/
def extractAmount (text : List Char) : Option (List Char) :=
  let first := (findFirst amountPat1 text).map pyStrip
  if first = none ∨ first = some [] then
    match (findFirst amountPat2 text).map pyStrip with
    | some v => some v
    | none => first
  else first

example : extractAmount "Amount Due\n  9,500.00".data = some "9,500.00".data := by decide
example : extractAmount "x Payment Request 12.5 y".data = some "12.5".data := by decide
example : extractAmount "Amount Due x Payment Request 7".data = some "7".data := by decide
example : extractAmount "Bank Name: HDFC".data = none := by decide

/-- Match `/Currency:\s*\n?\s*([A-Z]{3})?/i` at the start of `s`.  The
capture group is optional: when the label matches, the whole pattern
matches even if no three-letter code follows, with the capture absent
(`some none`). -/
def currencyCapAt (s : List Char) : Option (Option (List Char)) :=
  if ciPrefix "Currency:".data s then
    match (s.drop ("Currency:".data.length)).dropWhile isWsChar with
    | c1 :: c2 :: c3 :: _ =>
      if c1.isAlpha && c2.isAlpha && c3.isAlpha then some (some [c1, c2, c3])
      else some none
    | _ => some none
  else none

/-- `pageText.match(/Currency:\s*\n?\s*([A-Z]{3})?/i)`: the first
position where the Currency pattern matches, with its optional capture. -/
def findCurrency : List Char → Option (Option (List Char))
  | [] => currencyCapAt []
  | c :: cs =>
    match currencyCapAt (c :: cs) with
    | some r => some r
    | none => findCurrency cs

/-- `data['Currency'] = currMatch && currMatch[1] ? currMatch[1].trim() : ''`
in both cited TC_04 captures: the Currency value is computed
unconditionally — the trimmed capture when the optional group matched,
and the empty string otherwise (no match at all, or a match without a
currency code). -/
def extractCurrency (text : List Char) : List Char :=
  match findCurrency text with
  | some (some cap) => pyStrip cap
  | _ => []

/-- The Currency and Amount entries of the captured-data map built by
the cited TC_04 captures, in source order: the Currency key is written
unconditionally, the Amount key only when one of its patterns matched. -/
def captureMap (text : List Char) : List (List Char × List Char) :=
  [("Currency".data, extractCurrency text)]
    ++ (match extractAmount text with
        | some v => [("Amount".data, v)]
        | none => [])

example : findCurrency "Currency: INR".data = some (some "INR".data) := by decide
example : findCurrency "Currency:\nin Wallet".data = some none := by decide
example : findCurrency "Bank Name: HDFC".data = none := by decide
example : extractCurrency "x Currency: inr y".data = "inr".data := by decide
example : extractCurrency "Bank Name: HDFC".data = [] := by decide
example :
    captureMap "Bank Name: HDFC".data = [("Currency".data, [])] := by decide

theorem isSubstr_iff (n : List Char) :
    ∀ h : List Char, isSubstr n h = true ↔ n <:+: h := by
  intro h
  induction h with
  | nil =>
    simp [isSubstr, List.isPrefixOf_iff_prefix, List.infix_nil, List.prefix_nil]
  | cons c cs ih =>
    simp [isSubstr, List.infix_cons_iff, List.isPrefixOf_iff_prefix, ih]

theorem isSubstr_nil (h : List Char) : isSubstr [] h = true :=
  (isSubstr_iff [] h).mpr List.nil_infix

theorem normalizeVal_nil : normalizeVal [] = [] := rfl

theorem amountCompare_ne_dataMissing (e a : List Char) :
    amountCompare e a ≠ Status.DATA_MISSING := by
  unfold amountCompare
  rcases parseAmount e with _ | x <;> rcases parseAmount a with _ | y <;>
    dsimp only <;> split <;> simp

theorem tc05Basic_ne_dataMissing (e a : List Char) :
    tc05Basic e a ≠ Status.DATA_MISSING := by
  by_cases ha : a = []
  · subst ha
    by_cases he : normalizeVal e = normalizeVal []
    · simp [tc05Basic, he]
    · have hsub : isSubstr (normalizeVal []) (normalizeVal e) = true := by
        rw [normalizeVal_nil]; exact isSubstr_nil _
      simp [tc05Basic, he, hsub]
  · unfold tc05Basic
    dsimp only
    split
    · simp
    · split
      · simp
      · simp [ha]

theorem withinTol_iff (x y : Dec) :
    withinTol x y = true ↔ |x.toRat - y.toRat| < 1 / 100 := by
  unfold withinTol Dec.toRat
  rw [decide_eq_true_eq]
  have hx : (0:ℚ) < 10 ^ x.scale := by positivity
  have hy : (0:ℚ) < 10 ^ y.scale := by positivity
  have h10 : (0:ℚ) < 10 ^ (x.scale + y.scale) := by positivity
  have key : (x.num:ℚ) / 10 ^ x.scale - (y.num:ℚ) / 10 ^ y.scale
      = ((x.num * 10 ^ y.scale - y.num * 10 ^ x.scale : ℤ) : ℚ) / 10 ^ (x.scale + y.scale) := by
    rw [div_sub_div _ _ (ne_of_gt hx) (ne_of_gt hy)]
    push_cast
    ring
  rw [key, abs_div, abs_of_pos h10, div_lt_div_iff₀ h10 (by norm_num : (0:ℚ) < 100), one_mul]
  rw [← Nat.cast_lt (α := ℚ), Nat.cast_mul, Int.cast_natAbs, Int.cast_abs]
  push_cast
  constructor <;> intro h <;> linarith

theorem dropWhile_eq_self_of (p : Char → Bool) (v : List Char)
    (h : ∀ c ∈ v, p c = false) : v.dropWhile p = v := by
  rw [List.dropWhile_eq_self_iff]
  intro hl
  rw [h _ (List.get_mem v 0 hl)]
  simp

theorem pyStrip_eq_self (v : List Char) (h : ∀ c ∈ v, isWsChar c = false) :
    pyStrip v = v := by
  unfold pyStrip
  rw [dropWhile_eq_self_of _ _ h]
  rw [dropWhile_eq_self_of _ _ (fun c hc => h c (List.mem_reverse.mp hc))]
  exact List.reverse_reverse v

theorem matchAt_capture (p : FieldPat) (s v : List Char)
    (h : matchAt p s = some v) : v ≠ [] ∧ ∀ c ∈ v, p.capClass c = true := by
  unfold matchAt at h
  split at h
  · dsimp only at h
    split at h
    · simp at h
    · rename_i hne
      rw [Option.some_inj] at h
      subst h
      exact ⟨hne, fun c hc => List.mem_takeWhile_imp hc⟩
  · simp at h

theorem amtChar_not_ws (c : Char) (h : isAmtChar c = true) : isWsChar c = false := by
  by_contra hw
  rw [Bool.not_eq_false] at hw
  unfold isWsChar at hw
  simp only [Bool.or_eq_true, beq_iff_eq] at hw
  rcases hw with ((((rfl | rfl) | rfl) | rfl) | rfl) | rfl <;> exact absurd h (by decide)

theorem findFirst_none_iff (p : FieldPat) :
    ∀ s : List Char, findFirst p s = none ↔ ∀ i, matchAt p (s.drop i) = none := by
  intro s
  induction s with
  | nil =>
    constructor
    · intro h i
      simpa [List.drop_nil] using h
    · intro h
      simpa using h 0
  | cons c cs ih =>
    constructor
    · intro h i
      unfold findFirst at h
      cases hm : matchAt p (c :: cs) with
      | some v => rw [hm] at h; simp at h
      | none =>
        rw [hm] at h
        cases i with
        | zero => simpa using hm
        | succ j =>
          rw [List.drop_succ_cons]
          exact (ih.mp h) j
    · intro h
      unfold findFirst
      have h0 := h 0
      rw [List.drop_zero] at h0
      rw [h0]
      exact ih.mpr (fun j => by simpa [List.drop_succ_cons] using h (j + 1))

theorem findFirst_capture (p : FieldPat) :
    ∀ s v : List Char, findFirst p s = some v →
      v ≠ [] ∧ ∀ c ∈ v, p.capClass c = true := by
  intro s
  induction s with
  | nil => exact fun v h => matchAt_capture p [] v h
  | cons c cs ih =>
    intro v h
    unfold findFirst at h
    cases hm : matchAt p (c :: cs) with
    | some w =>
      rw [hm] at h
      simp only [Option.some_inj] at h
      subst h
      exact matchAt_capture p (c :: cs) w hm
    | none =>
      rw [hm] at h
      exact ih v h

theorem findCurrency_none_iff :
    ∀ s : List Char, findCurrency s = none ↔ ∀ i, currencyCapAt (s.drop i) = none := by
  intro s
  induction s with
  | nil =>
    constructor
    · intro h i
      simpa [List.drop_nil] using h
    · intro h
      simpa using h 0
  | cons c cs ih =>
    constructor
    · intro h i
      unfold findCurrency at h
      cases hm : currencyCapAt (c :: cs) with
      | some v => rw [hm] at h; simp at h
      | none =>
        rw [hm] at h
        cases i with
        | zero => simpa using hm
        | succ j =>
          rw [List.drop_succ_cons]
          exact (ih.mp h) j
    · intro h
      unfold findCurrency
      have h0 := h 0
      rw [List.drop_zero] at h0
      rw [h0]
      exact ih.mpr (fun j => by simpa [List.drop_succ_cons] using h (j + 1))

theorem ite_ne_flip (u v : List Char) :
    (if normalizeVal u ≠ normalizeVal v then Status.MISMATCH else Status.MATCH)
      = if normalizeVal u = normalizeVal v then Status.MATCH else Status.MISMATCH := by
  by_cases hh : normalizeVal u = normalizeVal v
  · rw [if_pos hh, if_neg (by simp [hh])]
  · rw [if_neg hh, if_pos hh]

/-- C1 (counterexample): the claim "status is DataMissing iff the actual
value is absent or empty after trimming, independent of the expected
value" fails on `_verify_data`: the whitespace-only actual `" "` is empty
after trimming yet (against expected `"X"`) classifies as MISMATCH, and an
empty actual against an empty expected classifies as MATCH, not
DATA MISSING. -/
theorem c1_dataMissing_cex :
    pyStrip [' '] = []
  ∧ verifyBasic ['X'] [' '] = Status.MISMATCH
  ∧ verifyBasic [] [] = Status.MATCH := by
  refine ⟨by decide, by decide, by decide⟩

/-- C1 (amended): in `_verify_data` (and the non-Amount branch of the
TC_04 loop), DATA MISSING is produced iff the raw actual value is the
empty string AND the normalized expected value is non-empty (equality
after normalization is tested first, so empty-vs-empty is MATCH, and a
whitespace-only actual is never DATA MISSING); the Amount branch of the
main-script loops never produces DATA MISSING at all. -/
theorem c1_dataMissing_iff :
    (∀ e a : List Char,
      verifyBasic e a = Status.DATA_MISSING ↔ a = [] ∧ normalizeVal e ≠ [])
  ∧ (∀ e a : List Char, amountCompare e a ≠ Status.DATA_MISSING) := by
  constructor
  · intro e a
    unfold verifyBasic
    by_cases ha : a = []
    · subst ha
      rw [normalizeVal_nil]
      by_cases he : normalizeVal e = []
      · simp [he]
      · rw [if_neg (fun hh => he hh.symm)]
        simp [he]
    · rw [if_neg ha]
      split <;> simp [ha]
  · exact amountCompare_ne_dataMissing

/-- C2: under the NumericTolerance policy, when both sides parse as
decimal numbers after comma stripping, the result is MATCH exactly when
the exact decimal values differ by less than 0.01, and MISMATCH
otherwise. -/
theorem c2_numeric_tolerance (e a : List Char) (x y : Dec)
    (he : parseAmount e = some x) (ha : parseAmount a = some y) :
    amountCompare e a
      = if |x.toRat - y.toRat| < 1 / 100 then Status.MATCH else Status.MISMATCH := by
  unfold amountCompare
  rw [he, ha]
  dsimp only
  by_cases h : withinTol x y = true
  · rw [if_pos h, if_pos ((withinTol_iff x y).mp h)]
  · rw [if_neg h, if_neg (fun hq => h ((withinTol_iff x y).mpr hq))]

/-- C2 (witness): expected `"9500.00"` and actual `"9499.50"` both parse,
and the comparison yields MISMATCH (the difference 0.50 is at least
0.01). -/
theorem c2_numeric_tolerance_witness :
    parseAmount "9500.00".data = some ⟨950000, 2⟩
  ∧ parseAmount "9499.50".data = some ⟨949950, 2⟩
  ∧ amountCompare "9500.00".data "9499.50".data = Status.MISMATCH := by
  refine ⟨by decide, by decide, ?_⟩
  rw [c2_numeric_tolerance "9500.00".data "9499.50".data ⟨950000, 2⟩ ⟨949950, 2⟩
    (by decide) (by decide)]
  rw [if_neg]
  intro hq
  exact absurd ((withinTol_iff ⟨950000, 2⟩ ⟨949950, 2⟩).mpr hq) (by decide)

theorem withinTol_comm (x y : Dec) : withinTol x y = withinTol y x := by
  unfold withinTol
  have hab : (x.num * 10 ^ y.scale - y.num * 10 ^ x.scale).natAbs
      = (y.num * 10 ^ x.scale - x.num * 10 ^ y.scale).natAbs := by omega
  rw [hab, Nat.add_comm]

/-- C3: the NumericTolerance comparison is symmetric in its two
arguments, on the numeric path (|x − y| is symmetric) and on the
parse-failure fallback path (normalized string equality is symmetric). -/
theorem c3_amount_symm (A B : List Char) : amountCompare A B = amountCompare B A := by
  unfold amountCompare
  cases hA : parseAmount A <;> cases hB : parseAmount B <;> dsimp only
  · rw [ite_ne_flip A B, ite_ne_flip B A]
    by_cases h : normalizeVal A = normalizeVal B
    · rw [if_pos h, if_pos h.symm]
    · rw [if_neg h, if_neg (fun hh => h hh.symm)]
  · rw [ite_ne_flip A B, ite_ne_flip B A]
    by_cases h : normalizeVal A = normalizeVal B
    · rw [if_pos h, if_pos h.symm]
    · rw [if_neg h, if_neg (fun hh => h hh.symm)]
  · rw [ite_ne_flip A B, ite_ne_flip B A]
    by_cases h : normalizeVal A = normalizeVal B
    · rw [if_pos h, if_pos h.symm]
    · rw [if_neg h, if_neg (fun hh => h hh.symm)]
  · rw [withinTol_comm]

/-- C4: under NumericTolerance, a parse failure of either side degrades
to an exact case-insensitive comparison of the trimmed, uppercased
strings — the verification still returns a classification (MATCH or
MISMATCH per string equality), so the unparseable value is neither fatal
nor coerced to a number. -/
theorem c4_fallback (e a : List Char)
    (h : parseAmount e = none ∨ parseAmount a = none) :
    amountCompare e a
      = if normalizeVal e = normalizeVal a then Status.MATCH else Status.MISMATCH := by
  unfold amountCompare
  cases hE : parseAmount e <;> cases hA : parseAmount a <;> dsimp only
  · exact ite_ne_flip e a
  · exact ite_ne_flip e a
  · exact ite_ne_flip e a
  · rcases h with h | h
    · rw [hE] at h
      exact absurd h (by simp)
    · rw [hA] at h
      exact absurd h (by simp)

/-- C4 (witness): `"N/A"` does not parse as a number, and comparing it
against `"n/a "` falls back to the case-insensitive string comparison,
which yields MATCH. -/
theorem c4_fallback_witness :
    parseAmount "N/A".data = none
  ∧ amountCompare "N/A".data "n/a ".data = Status.MATCH := by
  refine ⟨by decide, ?_⟩
  rw [c4_fallback "N/A".data "n/a ".data (Or.inl (by decide))]
  rw [if_pos (by decide)]

/-- C5: under the TC_05 substring policy, for present non-empty values
the result is MATCH exactly when the normalized expected value is a
substring of the normalized actual value or vice versa, and MISMATCH
otherwise. -/
theorem c5_substring_policy (e a : List Char) (_he : e ≠ []) (ha : a ≠ []) :
    tc05Basic e a
      = if normalizeVal e <:+: normalizeVal a ∨ normalizeVal a <:+: normalizeVal e
        then Status.MATCH else Status.MISMATCH := by
  unfold tc05Basic
  dsimp only
  by_cases h1 : normalizeVal e = normalizeVal a
  · rw [if_pos h1, if_pos (Or.inl (by rw [h1]))]
  · rw [if_neg h1]
    by_cases h2 : (isSubstr (normalizeVal a) (normalizeVal e)
        || isSubstr (normalizeVal e) (normalizeVal a)) = true
    · rw [if_pos h2]
      rcases (Bool.or_eq_true _ _).mp h2 with hsub | hsub
      · rw [if_pos (Or.inr ((isSubstr_iff _ _).mp hsub))]
      · rw [if_pos (Or.inl ((isSubstr_iff _ _).mp hsub))]
    · rw [if_neg h2, if_neg ha, if_neg]
      intro hor
      apply h2
      rcases hor with hsub | hsub
      · exact (Bool.or_eq_true _ _).mpr (Or.inr ((isSubstr_iff _ _).mpr hsub))
      · exact (Bool.or_eq_true _ _).mpr (Or.inl ((isSubstr_iff _ _).mpr hsub))

/-- C5 (witness): expected `"BANDHAN BANK"` against the extracted actual
`"BANDHAN BANK LIMITED"` yields MATCH under the substring policy. -/
theorem c5_substring_policy_witness :
    tc05Basic "BANDHAN BANK".data "BANDHAN BANK LIMITED".data = Status.MATCH := by
  rw [c5_substring_policy "BANDHAN BANK".data "BANDHAN BANK LIMITED".data
    (by decide) (by decide)]
  rw [if_pos]
  exact Or.inl ⟨[], " LIMITED".data, by decide⟩

/-- C6: `overallPassed` is the conjunction that every result is MATCH,
and the mismatched/missing counter counts exactly the non-MATCH results;
a report of 6 results with 5 MATCH and 1 MISMATCH has
`overallPassed = false` and counter 1. -/
theorem c6_aggregator :
    (∀ rs : List Status, overallPassed rs = rs.all (fun r => r == Status.MATCH))
  ∧ (∀ rs : List Status, failedCount rs = rs.countP (fun r => !(r == Status.MATCH)))
  ∧ overallPassed [Status.MATCH, Status.MATCH, Status.MATCH, Status.MATCH,
      Status.MATCH, Status.MISMATCH] = false
  ∧ failedCount [Status.MATCH, Status.MATCH, Status.MATCH, Status.MATCH,
      Status.MATCH, Status.MISMATCH] = 1 := by
  refine ⟨?_, fun rs => (List.countP_eq_length_filter _ _).symm, by decide, by decide⟩
  intro rs
  unfold overallPassed failedCount
  by_cases h : rs.all (fun r => r == Status.MATCH) = true
  · rw [h]
    have hnil : rs.filter (fun r => !(r == Status.MATCH)) = [] := by
      rw [List.filter_eq_nil_iff]
      intro r hr
      rw [List.all_eq_true] at h
      simp [h r hr]
    rw [hnil]
    rfl
  · rw [Bool.not_eq_true] at h
    rw [h]
    rw [List.all_eq_false] at h
    obtain ⟨r, hr, hp⟩ := h
    have hmem : r ∈ rs.filter (fun x => !(x == Status.MATCH)) := by
      rw [List.mem_filter]
      exact ⟨hr, by simp [hp]⟩
    have hlen : rs.filter (fun x => !(x == Status.MATCH)) ≠ [] := by
      intro hnil
      rw [hnil] at hmem
      exact absurd hmem (List.not_mem_nil r)
    simp [List.length_eq_zero, hlen]

/-- C7 (counterexample): under the exact-equality verifier of
`_verify_data` (a cited source of the claim), the differently-masked
account numbers `"****5678"` and `"********5678"` do NOT compare as
Match — both directions yield MISMATCH. -/
theorem c7_masked_cex :
    verifyBasic "****5678".data "********5678".data = Status.MISMATCH
  ∧ verifyBasic "********5678".data "****5678".data = Status.MISMATCH :=
  ⟨by decide, by decide⟩

/-- C7 (amended): the Match for differently-masked account numbers with
the same trailing digits holds only in the TC_05 verifier, whose
substring-either-direction rule accepts `"****5678"` against
`"********5678"` in both orders; the TC_04 exact-equality verifier
classifies the same pair as MISMATCH. -/
theorem c7_masked_amended :
    tc05VerifyField false "****5678".data "********5678".data = Status.MATCH
  ∧ tc05VerifyField false "********5678".data "****5678".data = Status.MATCH :=
  ⟨by decide, by decide⟩

/-- The Amount field is extracted as `none` exactly when neither of its
two patterns matches at any position of the page text; the first
pattern's first successful capture wins, and the alternative pattern is
consulted only when the first finds nothing. -/
theorem extractAmount_spec (text : List Char) :
    (extractAmount text = none ↔
      (∀ i, matchAt amountPat1 (text.drop i) = none)
      ∧ (∀ i, matchAt amountPat2 (text.drop i) = none))
  ∧ (∀ v, findFirst amountPat1 text = some v → extractAmount text = some v)
  ∧ (findFirst amountPat1 text = none →
      ∀ v, findFirst amountPat2 text = some v → extractAmount text = some v) := by
  cases h1 : findFirst amountPat1 text with
  | some v =>
    have hcap := findFirst_capture amountPat1 text v h1
    have hstrip : pyStrip v = v :=
      pyStrip_eq_self v (fun c hc => amtChar_not_ws c (hcap.2 c hc))
    have hext : extractAmount text = some v := by
      unfold extractAmount
      rw [h1]
      simp only [Option.map]
      rw [hstrip]
      rw [if_neg]
      push_neg
      exact ⟨by simp, by simp [hcap.1]⟩
    refine ⟨⟨?_, ?_⟩, ?_, ?_⟩
    · intro h0
      rw [hext] at h0
      exact absurd h0 (by simp)
    · rintro ⟨hall, -⟩
      have hcon := (findFirst_none_iff amountPat1 text).mpr hall
      rw [h1] at hcon
      exact absurd hcon (by simp)
    · intro w hw
      rw [Option.some_inj] at hw
      rw [hext, hw]
    · intro hnone
      exact absurd hnone (by simp)
  | none =>
    cases h2 : findFirst amountPat2 text with
    | some w =>
      have hcap2 := findFirst_capture amountPat2 text w h2
      have hstrip2 : pyStrip w = w :=
        pyStrip_eq_self w (fun c hc => amtChar_not_ws c (hcap2.2 c hc))
      have hext : extractAmount text = some w := by
        unfold extractAmount
        rw [h1, h2]
        simp only [Option.map]
        rw [if_pos (Or.inl trivial)]
        rw [hstrip2]
      refine ⟨⟨?_, ?_⟩, ?_, ?_⟩
      · intro h0
        rw [hext] at h0
        exact absurd h0 (by simp)
      · rintro ⟨-, hall2⟩
        have hcon := (findFirst_none_iff amountPat2 text).mpr hall2
        rw [h2] at hcon
        exact absurd hcon (by simp)
      · intro u hu
        exact absurd hu (by simp)
      · intro _ u hu
        rw [Option.some_inj] at hu
        rw [hext, hu]
    | none =>
      have hext : extractAmount text = none := by
        unfold extractAmount
        rw [h1, h2]
        rfl
      refine ⟨⟨?_, ?_⟩, ?_, ?_⟩
      · intro _
        exact ⟨(findFirst_none_iff amountPat1 text).mp h1,
               (findFirst_none_iff amountPat2 text).mp h2⟩
      · intro _
        exact hext
      · intro u hu
        exact absurd hu (by simp)
      · intro _ u hu
        exact absurd hu (by simp)

/-- C8 (counterexample): on a page text with no `Currency:` label at
all, the Currency pattern finds no match, yet the captured map still
contains the Currency key, bound to the empty string — the field is
present, not absent, refuting the claim that a field whose patterns all
fail is simply absent from the extracted map. -/
theorem c8_extraction_cex :
    findCurrency "Bank Name: HDFC".data = none
  ∧ (captureMap "Bank Name: HDFC".data).find? (fun q => q.1 == "Currency".data)
      = some ("Currency".data, [])
  ∧ extractAmount "Bank Name: HDFC".data = none :=
  ⟨by decide, by decide, by decide⟩

/-- C8 (amended): extraction is total (a Lean function, never an
exception).  For the conditionally-assigned Amount field the claim holds
as stated: the map entry is absent exactly when neither of its patterns
matches at any position, and the first pattern's first capture wins.
The Currency key, however, is assigned unconditionally in both cited
captures: it is always present in the captured map, holding the trimmed
capture when the optional currency-code group matched and the empty
string otherwise. -/
theorem c8_extraction_amended (text : List Char) :
    (extractAmount text = none ↔
      (∀ i, matchAt amountPat1 (text.drop i) = none)
      ∧ (∀ i, matchAt amountPat2 (text.drop i) = none))
  ∧ (∀ v, findFirst amountPat1 text = some v → extractAmount text = some v)
  ∧ (findFirst amountPat1 text = none →
      ∀ v, findFirst amountPat2 text = some v → extractAmount text = some v)
  ∧ ((captureMap text).find? (fun q => q.1 == "Amount".data) = none
      ↔ extractAmount text = none)
  ∧ (captureMap text).find? (fun q => q.1 == "Currency".data)
      = some ("Currency".data, extractCurrency text)
  ∧ (∀ cap, findCurrency text = some (some cap) → extractCurrency text = pyStrip cap)
  ∧ ((∀ i, currencyCapAt (text.drop i) = none) → extractCurrency text = []) := by
  obtain ⟨ha1, ha2, ha3⟩ := extractAmount_spec text
  have hk1 : (("Currency".data : List Char) == "Amount".data) = false := by decide
  have hk2 : (("Amount".data : List Char) == "Amount".data) = true := by decide
  have hk3 : (("Currency".data : List Char) == "Currency".data) = true := by decide
  refine ⟨ha1, ha2, ha3, ?_, ?_, ?_, ?_⟩
  · cases hA : extractAmount text with
    | some v =>
      have hfind : (captureMap text).find? (fun q => q.1 == "Amount".data)
          = some ("Amount".data, v) := by
        unfold captureMap
        rw [hA]
        simp [List.find?, hk1, hk2]
      rw [hfind]
      simp
    | none =>
      have hfind : (captureMap text).find? (fun q => q.1 == "Amount".data) = none := by
        unfold captureMap
        rw [hA]
        simp [List.find?, hk1]
      rw [hfind]
      simp
  · unfold captureMap
    cases hA : extractAmount text <;> simp [List.find?, hk3]
  · intro cap hc
    unfold extractCurrency
    rw [hc]
  · intro hall
    unfold extractCurrency
    rw [(findCurrency_none_iff text).mpr hall]

/-- C9: the verification pass is deterministic — it is a pure function of
the expected-value map and the captured-data map, so two runs on
identical inputs produce identical result lists. -/
theorem c9_deterministic (e1 c1 e2 c2 : List (List Char × List Char))
    (he : e1 = e2) (hc : c1 = c2) :
    runVerification e1 c1 = runVerification e2 c2 := by
  rw [he, hc]

/-- C9 (witness): two runs on the same concrete expected and captured
maps coincide, and evaluate to the MATCH verdict. -/
theorem c9_deterministic_witness :
    runVerification [("Amount".data, "9500.00".data)] [("Amount".data, "9,500.00".data)]
      = runVerification [("Amount".data, "9500.00".data)] [("Amount".data, "9,500.00".data)]
  ∧ runVerification [("Amount".data, "9500.00".data)] [("Amount".data, "9,500.00".data)]
      = [("Amount".data, Status.MATCH)] :=
  ⟨c9_deterministic _ _ _ _ rfl rfl, by decide⟩

/-- C10: in the TC_05 comparison chain the DATA MISSING branch is
unreachable: a blank actual normalizes to the empty string, the empty
string is a substring of every normalized expected value, so the
substring test classifies it as MATCH first; and the Amount branch only
ever produces MATCH or MISMATCH. -/
theorem c10_dataMissing_unreachable :
    ∀ (isAmount : Bool) (e a : List Char),
      tc05VerifyField isAmount e a ≠ Status.DATA_MISSING := by
  intro b e a
  cases b with
  | false =>
    unfold tc05VerifyField
    rw [if_neg (by simp)]
    exact tc05Basic_ne_dataMissing e a
  | true =>
    unfold tc05VerifyField
    rw [if_pos rfl]
    exact amountCompare_ne_dataMissing e a
